import Mathlib

/-!
# Verification of the CHATLI backend chat/presence core

A shallow embedding of the real-time chat subsystem of the CHATLI backend:
the `Chat` document model with its unread-counter methods
(`models/Chat.js`), the `Message` document model with reactions and the
last-message pre-save hook (the Message model file), and the Socket.IO
event handlers of the server entry file (authenticate / join_chat /
leave_chat / send_message / disconnect).

Mongo ObjectIds are modelled as `Nat` (JS `toString()` comparison of two
ObjectIds is equality of the ids).  JS numbers holding counters are
modelled as `Int` (the code can, in principle, hold any integer there and
clamps negatives to 0 after a decrement).  A mongoose `save()` is
modelled as a `Bool` flag ("a persistence write happened") returned next
to the updated document.  Date values are modelled as `Nat` timestamps.
Schema fields never read or written by any modelled operation (settings,
name, timestamps metadata) are omitted.
-/

/-- A Mongo ObjectId of a user, modelled as a natural number. -/
abbrev UserId := Nat

/-- A Mongo ObjectId of a chat, modelled as a natural number. -/
abbrev ChatId := Nat

/-- A Socket.IO socket id. -/
abbrev SocketId := Nat

/-- One element of the `unreadCounts` array of a chat document:
`{ user, count }`. -/
structure UnreadEntry where
  user : UserId
  count : Int
deriving DecidableEq, Repr

/-- The embedded `lastMessage` summary of a chat document. -/
structure LastMessage where
  id : Nat
  text : String
  sender : UserId
  timestamp : Nat
  isRead : Bool
deriving DecidableEq, Repr

/-- The chat document (`models/Chat.js` schema), restricted to the fields
read or written by the modelled methods and handlers. -/
structure Chat where
  participants : List UserId
  admins : List UserId
  lastMessage : Option LastMessage
  unreadCounts : List UnreadEntry
  isActive : Bool
  deletedBy : List UserId
  pinnedMessages : List Nat
deriving DecidableEq, Repr

/-- Apply `f` to the first entry of the list whose `user` field is `u`
(the JS `findIndex` / mutate-in-place pattern); `none` when no entry
matches (`findIndex` returned `-1`). -/
def updateFirst (u : UserId) (f : UnreadEntry → UnreadEntry) :
    List UnreadEntry → Option (List UnreadEntry)
  | [] => none
  | e :: rest =>
    if e.user = u then some (f e :: rest)
    else (updateFirst u f rest).map (e :: ·)

/-- The mutation performed by `updateUnreadCount` on a found entry:
`count += increment ? 1 : -1; if (count < 0) count = 0`. -/
def applyIncrement (increment : Bool) (e : UnreadEntry) : UnreadEntry :=
  let c := e.count + (if increment then 1 else -1)
  { e with count := if c < 0 then 0 else c }

/-- The `getUnreadCount` virtual of `models/Chat.js`: the count of the
first `unreadCounts` entry for the user, `0` when there is none. -/
def Chat.getUnreadCount (c : Chat) (u : UserId) : Int :=
  match c.unreadCounts.find? (fun e => e.user == u) with
  | some e => e.count
  | none => 0

/-- `chatSchema.methods.updateUnreadCount(userId, increment = true)` of
`models/Chat.js`: bump (or clamp-decrement) the first entry for the
user; when absent and incrementing, push `{ user, count: 1 }`.  The
method always ends in `this.save()`, hence the `true` flag. -/
def Chat.updateUnreadCount (c : Chat) (u : UserId) (increment : Bool) :
    Chat × Bool :=
  match updateFirst u (applyIncrement increment) c.unreadCounts with
  | some l => ({ c with unreadCounts := l }, true)
  | none =>
    if increment then
      ({ c with unreadCounts := c.unreadCounts ++ [{ user := u, count := 1 }] }, true)
    else (c, true)

/-- `chatSchema.methods.markAsRead(userId)` of `models/Chat.js`: zero the
first entry for the user and save; when no entry exists, return the
document unchanged without saving. -/
def Chat.markAsRead (c : Chat) (u : UserId) : Chat × Bool :=
  match updateFirst u (fun e => { e with count := 0 }) c.unreadCounts with
  | some l => ({ c with unreadCounts := l }, true)
  | none => (c, false)

/-- `chatSchema.methods.deleteForUser(userId)` of `models/Chat.js`: push
the user onto `deletedBy` and save, unless already present (then no
write). -/
def Chat.deleteForUser (c : Chat) (u : UserId) : Chat × Bool :=
  if c.deletedBy.any (fun x => x == u) then (c, false)
  else ({ c with deletedBy := c.deletedBy ++ [u] }, true)

/-- `chatSchema.methods.restoreForUser(userId)` of `models/Chat.js`:
filter the user out of `deletedBy` and save, when present (else no
write). -/
def Chat.restoreForUser (c : Chat) (u : UserId) : Chat × Bool :=
  if c.deletedBy.any (fun x => x == u) then
    ({ c with deletedBy := c.deletedBy.filter (fun x => x != u) }, true)
  else (c, false)

/-! ## Message model (message schema file) -/

/-- One element of the `reactions` array of a message document:
`{ user, emoji }` (the `createdAt` of a reaction is never read by the
modelled operations and is omitted). -/
structure Reaction where
  user : UserId
  emoji : String
deriving DecidableEq, Repr

/-- The message document, restricted to the fields read or written by
the modelled operations.  `text` is the optional `content.text`
(`none` for a non-text payload). -/
structure Message where
  mid : Nat
  sender : UserId
  text : Option String
  reactions : List Reaction
  isDeleted : Bool
  createdAt : Nat
deriving DecidableEq, Repr

/-- `messageSchema.methods.addReaction(userId, emoji)`: when the exact
`(user, emoji)` reaction exists, remove it (toggle off); otherwise drop
every reaction of the user and push the new one.  Always saves. -/
def Message.addReaction (m : Message) (u : UserId) (emoji : String) :
    Message × Bool :=
  if m.reactions.any (fun r => r.user == u && r.emoji == emoji) then
    ({ m with reactions :=
        m.reactions.filter (fun r => !(r.user == u && r.emoji == emoji)) }, true)
  else
    ({ m with reactions :=
        m.reactions.filter (fun r => r.user != u) ++ [{ user := u, emoji := emoji }] }, true)

/-- `messageSchema.methods.softDelete()`: set `isDeleted` and save.  The
`deletedAt` date is omitted (never read by a modelled operation).  The
subsequent `save()` does not fire the last-message hook because the
document is not new. -/
def Message.softDelete (m : Message) : Message :=
  { m with isDeleted := true }

/-- A single chat together with its message log: the slice of the store
the message-level claims range over (every modelled message belongs to
this one chat, so the message's `chat` reference is left implicit). -/
structure MsgSystem where
  chat : Chat
  msgs : List Message
deriving DecidableEq, Repr

/-- The summary written by the pre-save hook:
`{ id, text: content.text || '', sender, timestamp: createdAt,
isRead: false }`. -/
def Message.summary (m : Message) : LastMessage :=
  { id := m.mid, text := m.text.getD "", sender := m.sender,
    timestamp := m.createdAt, isRead := false }

/-- The `messageSchema.pre('save')` hook applied to the first save of a
new document, followed by persisting it: when the new document is not
deleted, `Chat.findByIdAndUpdate` overwrites the chat's `lastMessage`
summary. -/
def MsgSystem.saveNew (s : MsgSystem) (m : Message) : MsgSystem :=
  { chat :=
      if !m.isDeleted then { s.chat with lastMessage := some m.summary }
      else s.chat,
    msgs := s.msgs ++ [m] }

/-- Creation of a message: a fresh document (schema defaults: no
reactions, `isDeleted: false`) saved for the first time, firing the
pre-save hook. -/
def MsgSystem.createMessage (s : MsgSystem) (mid : Nat) (sender : UserId)
    (text : Option String) (now : Nat) : MsgSystem :=
  s.saveNew { mid := mid, sender := sender, text := text, reactions := [],
              isDeleted := false, createdAt := now }

/-- Soft-deleting the message with id `mid` in the log: `softDelete` on
that document; the chat document is untouched (the pre-save hook only
fires for new documents). -/
def MsgSystem.softDeleteMsg (s : MsgSystem) (mid : Nat) : MsgSystem :=
  { s with msgs := s.msgs.map (fun m => if m.mid == mid then m.softDelete else m) }

/-! ## Socket.IO server (server entry file)

The connection layer is embedded as a state machine: a `ServerState`
holds the live sockets (each with the per-socket fields the handlers
set: `socket.userId` and the set of joined rooms), the `connectedUsers`
map, the chat collection, and the persisted user-status column.  Each
handler is a function `ServerState → args → ServerState × List Emit`,
where an `Emit` records a server→client emission.  `authenticate`
receives the combined outcome of `jwt.verify` plus `User.findById` as an
`Option UserId` (`none`: the token failed to verify or the user was not
found — both paths end with no state change). -/

/-- A Socket.IO room name used by the server: `user_${id}` or
`chat_${id}`. -/
inductive Room where
  | user (u : UserId)
  | chat (c : ChatId)
deriving DecidableEq, Repr

/-- One live socket: its id, the `socket.userId` field (unset until a
successful `authenticate`), and its joined rooms. -/
structure Session where
  sid : SocketId
  userId : Option UserId
  rooms : List Room
deriving DecidableEq, Repr

/-- The persisted user `status` enum. -/
inductive Status where
  | online
  | offline
  | away
deriving DecidableEq, Repr

/-- A server→client emission.  `statusBroadcast from u st` stands for
`socket.broadcast.emit('user_status_change', {userId: u, status: st})`
issued by the socket `from` (delivered to every connected socket other
than `from`); `newMessage target c t` / `typing target ...` are
per-target room deliveries. -/
inductive Emit where
  | newMessage (target : SocketId) (chatId : ChatId) (text : String)
  | statusBroadcast (fromSid : SocketId) (user : UserId) (status : Status)
  | typing (target : SocketId) (chatId : ChatId) (user : Option UserId) (isTyping : Bool)
deriving DecidableEq, Repr

/-- JS `Map.set` / upsert on an association list (used for
`connectedUsers` and for `findByIdAndUpdate` on the status column). -/
def setEntry {α : Type} : List (Nat × α) → Nat → α → List (Nat × α)
  | [], k, v => [(k, v)]
  | (k', v') :: rest, k, v =>
    if k' = k then (k, v) :: rest else (k', v') :: setEntry rest k v

/-- JS `Map.delete` on an association list. -/
def removeEntry {α : Type} : List (Nat × α) → Nat → List (Nat × α)
  | [], _ => []
  | (k', v') :: rest, k =>
    if k' = k then removeEntry rest k else (k', v') :: removeEntry rest k

/-- Association-list lookup (`Map.get` / `findById`). -/
def lookupEntry {α : Type} (l : List (Nat × α)) (k : Nat) : Option α :=
  (l.find? (fun p => p.1 == k)).map (fun p => p.2)

/-- `socket.join(room)`: Socket.IO room membership is a set — joining a
room already joined is a no-op. -/
def joinRoom (rooms : List Room) (r : Room) : List Room :=
  if r ∈ rooms then rooms else rooms ++ [r]

/-- `socket.leave(room)`. -/
def leaveRoom (rooms : List Room) (r : Room) : List Room :=
  rooms.filter (fun x => x ≠ r)

/-- The full server state: live sockets, the in-memory `connectedUsers`
map, the persisted chat collection, and the persisted per-user status
column. -/
structure ServerState where
  sessions : List Session
  connectedUsers : List (UserId × SocketId)
  chats : List (ChatId × Chat)
  userStatus : List (UserId × Status)
deriving DecidableEq, Repr

/-- The live socket with the given id, if any. -/
def findSession (st : ServerState) (sid : SocketId) : Option Session :=
  st.sessions.find? (fun s => s.sid == sid)

/-- Apply `f` to every live socket with the given id (a live server
never holds two sockets with one id; the map form keeps the handlers
total). -/
def modifySession (st : ServerState) (sid : SocketId) (f : Session → Session) :
    ServerState :=
  { st with sessions := st.sessions.map (fun s => if s.sid = sid then f s else s) }

/-- `io.on('connection')`: a fresh socket appears, with no user and no
rooms. -/
def handleConnect (st : ServerState) (sid : SocketId) : ServerState × List Emit :=
  ({ st with sessions := st.sessions ++ [{ sid := sid, userId := none, rooms := [] }] },
   [])

/-- The `authenticate` handler.  On `some uid` (token verified and user
found): set `socket.userId`, register in `connectedUsers`, persist
`status: 'online'`, join the personal room `user_${id}`, and broadcast
`user_status_change {uid, online}` to all other sockets.  On `none`
(verification threw, or no user): the catch/if swallows it — no state
change, no emission, connection kept. -/
def handleAuthenticate (st : ServerState) (sid : SocketId)
    (result : Option UserId) : ServerState × List Emit :=
  match result with
  | none => (st, [])
  | some uid =>
    let st' := modifySession st sid
      (fun s => { s with userId := some uid, rooms := joinRoom s.rooms (.user uid) })
    ({ st' with
        connectedUsers := setEntry st'.connectedUsers uid sid,
        userStatus := setEntry st'.userStatus uid .online },
     [.statusBroadcast sid uid .online])

/-- The `join_chat` handler: `socket.join('chat_' + chatId)` — no
authentication check, no other effect. -/
def handleJoinChat (st : ServerState) (sid : SocketId) (c : ChatId) :
    ServerState × List Emit :=
  (modifySession st sid (fun s => { s with rooms := joinRoom s.rooms (.chat c) }), [])

/-- The `leave_chat` handler: `socket.leave('chat_' + chatId)`. -/
def handleLeaveChat (st : ServerState) (sid : SocketId) (c : ChatId) :
    ServerState × List Emit :=
  (modifySession st sid (fun s => { s with rooms := leaveRoom s.rooms (.chat c) }), [])

/-- The unread-count loop of the `send_message` handler: for every
participant whose id differs from `socket.userId` (when `socket.userId`
is `undefined`, the strict-inequality test holds for every participant),
run `chat.updateUnreadCount(participantId, true)` in order. -/
def processSend (chat : Chat) (senderOpt : Option UserId) : Chat :=
  let others := chat.participants.filter (fun p => some p ≠ senderOpt)
  others.foldl (fun c p => (c.updateUnreadCount p true).1) chat

/-- The `send_message` handler: `socket.to('chat_' + chatId)` emits
`new_message` to every socket joined to the room other than the sender;
then, when `Chat.findById` finds the chat, the unread counters of all
participants other than `socket.userId` are incremented.  No
authentication check. -/
def handleSendMessage (st : ServerState) (sid : SocketId) (chatId : ChatId)
    (text : String) : ServerState × List Emit :=
  let emits := (st.sessions.filter
      (fun t => t.sid ≠ sid ∧ Room.chat chatId ∈ t.rooms)).map
      (fun t => Emit.newMessage t.sid chatId text)
  let senderOpt := (findSession st sid).bind (fun s => s.userId)
  match lookupEntry st.chats chatId with
  | none => (st, emits)
  | some chat =>
    ({ st with chats := setEntry st.chats chatId (processSend chat senderOpt) }, emits)

/-- The `typing_start` / `typing_stop` handlers: room broadcast of
`user_typing`, never touching state. -/
def handleTyping (st : ServerState) (sid : SocketId) (chatId : ChatId)
    (isTyping : Bool) : ServerState × List Emit :=
  let senderOpt := (findSession st sid).bind (fun s => s.userId)
  (st, (st.sessions.filter
      (fun t => t.sid ≠ sid ∧ Room.chat chatId ∈ t.rooms)).map
      (fun t => Emit.typing t.sid chatId senderOpt isTyping))

/-- The `disconnect` handler: the socket disappears; when
`socket.userId` was set, additionally drop the `connectedUsers` entry,
persist `status: 'offline'`, and broadcast
`user_status_change {uid, offline}`.  A socket that never authenticated
produces no emission. -/
def handleDisconnect (st : ServerState) (sid : SocketId) : ServerState × List Emit :=
  let rest := { st with sessions := st.sessions.filter (fun s => s.sid ≠ sid) }
  match findSession st sid with
  | none => (st, [])
  | some sess =>
    match sess.userId with
    | none => (rest, [])
    | some uid =>
      ({ rest with
          connectedUsers := removeEntry rest.connectedUsers uid,
          userStatus := setEntry rest.userStatus uid .offline },
       [.statusBroadcast sid uid .offline])

/-- A client-side occurrence the server reacts to: transport connect /
disconnect, or one of the socket events, tagged with the socket id it
arrives on.  `authenticate` carries the outcome of the token check. -/
inductive InEvent where
  | connect (sid : SocketId)
  | authenticate (sid : SocketId) (result : Option UserId)
  | joinChat (sid : SocketId) (c : ChatId)
  | leaveChat (sid : SocketId) (c : ChatId)
  | sendMessage (sid : SocketId) (c : ChatId) (text : String)
  | typingStart (sid : SocketId) (c : ChatId)
  | typingStop (sid : SocketId) (c : ChatId)
  | disconnect (sid : SocketId)
deriving DecidableEq, Repr

/-- The socket id an event arrives on. -/
def InEvent.sid : InEvent → SocketId
  | .connect s => s
  | .authenticate s _ => s
  | .joinChat s _ => s
  | .leaveChat s _ => s
  | .sendMessage s _ _ => s
  | .typingStart s _ => s
  | .typingStop s _ => s
  | .disconnect s => s

/-- Dispatch one event to its handler. -/
def processEvent (st : ServerState) : InEvent → ServerState × List Emit
  | .connect s => handleConnect st s
  | .authenticate s r => handleAuthenticate st s r
  | .joinChat s c => handleJoinChat st s c
  | .leaveChat s c => handleLeaveChat st s c
  | .sendMessage s c t => handleSendMessage st s c t
  | .typingStart s c => handleTyping st s c true
  | .typingStop s c => handleTyping st s c false
  | .disconnect s => handleDisconnect st s

/-- Run a sequence of events, collecting every emission in order. -/
def runEvents (st : ServerState) : List InEvent → ServerState × List Emit
  | [] => (st, [])
  | e :: rest =>
    ((runEvents (processEvent st e).1 rest).1,
     (processEvent st e).2 ++ (runEvents (processEvent st e).1 rest).2)

/-- The server before any connection: no sockets, empty presence map.
The persisted collections are arbitrary, so the trace theorems are
stated over a start state with given `chats` / `userStatus`. -/
def initialState (chats : List (ChatId × Chat)) (userStatus : List (UserId × Status)) :
    ServerState :=
  { sessions := [], connectedUsers := [], chats := chats, userStatus := userStatus }

/-- Number of `user_status_change` broadcasts issued by socket `s` with
the given status. -/
def countStatusFrom (s : SocketId) (stat : Status) (out : List Emit) : Nat :=
  out.countP (fun e =>
    match e with
    | .statusBroadcast f _ st => f == s && st == stat
    | _ => false)

/-- Number of `user_status_change` broadcasts issued by socket `s`
(either status). -/
def countAnyStatusFrom (s : SocketId) (out : List Emit) : Nat :=
  out.countP (fun e =>
    match e with
    | .statusBroadcast f _ _ => f == s
    | _ => false)

/-- Number of successful `authenticate` events by socket `s` in a
trace (token verified and user found). -/
def countSuccAuth (s : SocketId) : List InEvent → Nat
  | [] => 0
  | .authenticate s' (some _) :: rest =>
    (if s' = s then 1 else 0) + countSuccAuth s rest
  | _ :: rest => countSuccAuth s rest

/-- Well-formed transport traces, tracked against the set of live socket
ids: a socket connects with a fresh id, emits events only while live,
and disconnects at most once.  Every trace a real Socket.IO transport
produces is of this shape. -/
def wfTrace (alive : List SocketId) : List InEvent → Bool
  | [] => true
  | .connect s :: rest => !alive.contains s && wfTrace (s :: alive) rest
  | .disconnect s :: rest =>
    alive.contains s && wfTrace (alive.filter (fun x => x ≠ s)) rest
  | e :: rest => alive.contains e.sid && wfTrace alive rest

/-- Modelled from the spec: the number of `offline` status broadcasts
the spec prescribes for socket `s` along a trace — one per `disconnect`
of `s` that happens after a successful authentication of `s` (the flag
`authed` carries whether `s` has authenticated since it last
connected).  Used as the specification side of the C4 refinement. -/
def specOfflineCount (s : SocketId) (authed : Bool) : List InEvent → Nat
  | [] => 0
  | .authenticate s' (some _) :: rest =>
    specOfflineCount s (authed || s' == s) rest
  | .disconnect s' :: rest =>
    if s' = s then (if authed then 1 else 0) + specOfflineCount s false rest
    else specOfflineCount s authed rest
  | _ :: rest => specOfflineCount s authed rest

/-- Whether the live socket `s` currently has `socket.userId` set. -/
def sessionAuthed (st : ServerState) (s : SocketId) : Bool :=
  match findSession st s with
  | some sess => sess.userId.isSome
  | none => false

/-! ## Derived predicates and concrete fixtures -/

/-- The documented chat invariant on the counter list: at most one
entry per user (no duplicated users) and every count non-negative. -/
def ChatInv (c : Chat) : Prop :=
  (c.unreadCounts.map (fun e => e.user)).Nodup ∧ ∀ e ∈ c.unreadCounts, 0 ≤ e.count

/-- The reactions a given participant currently has on a message. -/
def userReactions (m : Message) (u : UserId) : List Reaction :=
  m.reactions.filter (fun r => r.user == u)

/-- Whether the exact `(user, emoji)` reaction is present. -/
def hasReaction (m : Message) (u : UserId) (emoji : String) : Bool :=
  m.reactions.any (fun r => r.user == u && r.emoji == emoji)

/-- Modelled from the spec: "`lastMessage` always reflects the most
recently created non-deleted message in the chat."  True iff the
summary points at a live (non-deleted) message whose creation time is
maximal among live messages — or there is no summary and no live
message.  Used only to state the refutation of C5. -/
def lastMessageCorrect (s : MsgSystem) : Bool :=
  match s.chat.lastMessage with
  | some lm =>
    s.msgs.any (fun m =>
      m.mid == lm.id && !m.isDeleted &&
      s.msgs.all (fun m2 => m2.isDeleted || m2.createdAt ≤ m.createdAt))
  | none => s.msgs.all (fun m => m.isDeleted)

/-- Number of `new_message` deliveries addressed to a given socket. -/
def countNewMessageTo (target : SocketId) (out : List Emit) : Nat :=
  out.countP (fun e =>
    match e with
    | .newMessage t _ _ => t == target
    | _ => false)

/-- The live-socket bookkeeping invariant tying a server state to the
set of live ids of a well-formed trace: socket ids are unique and are
exactly the live ids. -/
def SidsOk (st : ServerState) (alive : List SocketId) : Prop :=
  (st.sessions.map (fun s => s.sid)).Nodup ∧
  ∀ x, x ∈ st.sessions.map (fun s => s.sid) ↔ x ∈ alive

/-- A concrete chat document used to instantiate the theorems. -/
def chatA : Chat :=
  { participants := [10, 11], admins := [], lastMessage := none,
    unreadCounts := [{ user := 10, count := 2 }, { user := 11, count := 0 }],
    isActive := true, deletedBy := [], pinnedMessages := [] }

/-- A chat already soft-deleted for user 5 (counterexample input). -/
def chatB : Chat :=
  { participants := [5, 6], admins := [], lastMessage := none,
    unreadCounts := [], isActive := true, deletedBy := [5],
    pinnedMessages := [] }

/-- A message on which user 7 already reacted with `"x"`
(counterexample input). -/
def msgA : Message :=
  { mid := 1, sender := 2, text := some "t",
    reactions := [{ user := 7, emoji := "x" }], isDeleted := false,
    createdAt := 0 }

/-- The chat document stored in `stUnauth` (fixture). -/
def chatU : Chat :=
  { participants := [10, 11], admins := [], lastMessage := none,
    unreadCounts := [], isActive := true, deletedBy := [],
    pinnedMessages := [] }

/-- A server state with two unauthenticated sockets joined to the room
of chat 5 (counterexample input for the unauthenticated-send claim). -/
def stUnauth : ServerState :=
  { sessions := [{ sid := 1, userId := none, rooms := [Room.chat 5] },
                 { sid := 2, userId := none, rooms := [Room.chat 5] }],
    connectedUsers := [],
    chats := [(5, chatU)],
    userStatus := [] }

/-- A chat between users 10 and 11 with empty counters (witness
input). -/
def chatC : Chat :=
  { participants := [10, 11], admins := [], lastMessage := none,
    unreadCounts := [], isActive := true, deletedBy := [],
    pinnedMessages := [] }

/-- A server state with two authenticated sockets joined to the room of
chat 5 (witness input). -/
def stAuth : ServerState :=
  { sessions := [{ sid := 1, userId := some 10, rooms := [Room.chat 5] },
                 { sid := 2, userId := some 11, rooms := [Room.chat 5] }],
    connectedUsers := [(10, 1), (11, 2)],
    chats := [(5, chatC)],
    userStatus := [] }

/-- An empty one-chat message system (counterexample input for the
last-message claim). -/
def sysA : MsgSystem :=
  { chat := { participants := [10, 11], admins := [], lastMessage := none,
              unreadCounts := [], isActive := true, deletedBy := [],
              pinnedMessages := [] },
    msgs := [] }


/-! ## Lemmas: the unread-counter list -/

/-- List-level reading of the `getUnreadCount` virtual. -/
def getCount (l : List UnreadEntry) (u : UserId) : Int :=
  match l.find? (fun e => e.user == u) with
  | some e => e.count
  | none => 0

lemma Chat.getUnreadCount_def (c : Chat) (u : UserId) :
    c.getUnreadCount u = getCount c.unreadCounts u := rfl

lemma updateFirst_eq_none (u : UserId) (f : UnreadEntry → UnreadEntry)
    (l : List UnreadEntry) :
    updateFirst u f l = none ↔ ∀ e ∈ l, e.user ≠ u := by
  induction l with
  | nil => simp [updateFirst]
  | cons e rest ih =>
    by_cases h : e.user = u
    · simp [updateFirst, h]
    · simp [updateFirst, h, ih]

lemma getCount_updateFirst_self (u : UserId) (f : UnreadEntry → UnreadEntry)
    (hf : ∀ e, (f e).user = e.user) (l l' : List UnreadEntry)
    (h : updateFirst u f l = some l') :
    ∃ e, l.find? (fun x => x.user == u) = some e ∧
      getCount l' u = (f e).count ∧ getCount l u = e.count := by
  induction l generalizing l' with
  | nil => simp [updateFirst] at h
  | cons e rest ih =>
    by_cases he : e.user = u
    · simp only [updateFirst, if_pos he] at h
      refine ⟨e, ?_, ?_, ?_⟩
      · simp [List.find?_cons, he]
      · obtain rfl := (Option.some.inj h).symm; simp [getCount, List.find?_cons, hf, he]
      · simp [getCount, List.find?_cons, he]
    · simp only [updateFirst, if_neg he] at h
      cases hrec : updateFirst u f rest with
      | none => simp [hrec] at h
      | some r' =>
        simp only [hrec, Option.map_some'] at h
        obtain ⟨e0, hfind, hl', hl⟩ := ih r' hrec
        refine ⟨e0, ?_, ?_, ?_⟩
        · simp [List.find?_cons, he, hfind]
        · obtain rfl := (Option.some.inj h).symm; simpa [getCount, List.find?_cons, he] using hl'
        · simpa [getCount, List.find?_cons, he] using hl

lemma getCount_updateFirst_other (u q : UserId) (f : UnreadEntry → UnreadEntry)
    (hf : ∀ e, (f e).user = e.user) (hq : q ≠ u) (l l' : List UnreadEntry)
    (h : updateFirst u f l = some l') :
    getCount l' q = getCount l q := by
  induction l generalizing l' with
  | nil => simp [updateFirst] at h
  | cons e rest ih =>
    by_cases he : e.user = u
    · simp only [updateFirst, if_pos he] at h
      obtain rfl := (Option.some.inj h).symm
      have h1 : (f e).user = e.user := hf e
      have h2 : (u == q) = false := by simp [Ne.symm hq]
      simp [getCount, List.find?_cons, h1, he, h2]
    · simp only [updateFirst, if_neg he] at h
      cases hrec : updateFirst u f rest with
      | none => simp [hrec] at h
      | some r' =>
        simp only [hrec, Option.map_some'] at h
        obtain rfl := (Option.some.inj h).symm
        by_cases hqe : e.user = q
        · simp [getCount, List.find?_cons, hqe]
        · simpa [getCount, List.find?_cons, hqe] using ih r' hrec

lemma map_user_updateFirst (u : UserId) (f : UnreadEntry → UnreadEntry)
    (hf : ∀ e, (f e).user = e.user) (l l' : List UnreadEntry)
    (h : updateFirst u f l = some l') :
    l'.map (fun e => e.user) = l.map (fun e => e.user) := by
  induction l generalizing l' with
  | nil => simp [updateFirst] at h
  | cons e rest ih =>
    by_cases he : e.user = u
    · simp only [updateFirst, if_pos he] at h
      obtain rfl := (Option.some.inj h).symm; simp [hf]
    · simp only [updateFirst, if_neg he] at h
      cases hrec : updateFirst u f rest with
      | none => simp [hrec] at h
      | some r' =>
        simp only [hrec, Option.map_some'] at h
        obtain rfl := (Option.some.inj h).symm; simp [ih r' hrec]

lemma updateFirst_forall (u : UserId) (f : UnreadEntry → UnreadEntry)
    (P : UnreadEntry → Prop) (l l' : List UnreadEntry)
    (h : updateFirst u f l = some l')
    (hl : ∀ e ∈ l, P e) (hfP : ∀ e, P e → P (f e)) : ∀ e' ∈ l', P e' := by
  induction l generalizing l' with
  | nil => simp [updateFirst] at h
  | cons e rest ih =>
    by_cases he : e.user = u
    · simp only [updateFirst, if_pos he] at h
      obtain rfl := (Option.some.inj h).symm
      intro e' he'
      rcases List.mem_cons.mp he' with h1 | h1
      · exact h1 ▸ hfP e (hl e (by simp))
      · exact hl e' (by simp [h1])
    · simp only [updateFirst, if_neg he] at h
      cases hrec : updateFirst u f rest with
      | none => simp [hrec] at h
      | some r' =>
        simp only [hrec, Option.map_some'] at h
        obtain rfl := (Option.some.inj h).symm
        intro e' he'
        rcases List.mem_cons.mp he' with h1 | h1
        · exact h1 ▸ hl e (by simp)
        · exact ih r' hrec (fun x hx => hl x (by simp [hx])) e' h1

lemma filter_ne_updateFirst (u : UserId) (f : UnreadEntry → UnreadEntry)
    (hf : ∀ e, (f e).user = e.user) (l l' : List UnreadEntry)
    (h : updateFirst u f l = some l') :
    l'.filter (fun e => e.user != u) = l.filter (fun e => e.user != u) := by
  induction l generalizing l' with
  | nil => simp [updateFirst] at h
  | cons e rest ih =>
    by_cases he : e.user = u
    · simp only [updateFirst, if_pos he] at h
      obtain rfl := (Option.some.inj h).symm
      simp [List.filter_cons, he, hf]
    · simp only [updateFirst, if_neg he] at h
      cases hrec : updateFirst u f rest with
      | none => simp [hrec] at h
      | some r' =>
        simp only [hrec, Option.map_some'] at h
        obtain rfl := (Option.some.inj h).symm
        simp [List.filter_cons, he, ih r' hrec]

lemma getCount_append_absent (l : List UnreadEntry) (u : UserId) (x : UnreadEntry)
    (h : ∀ e ∈ l, e.user ≠ u) (hx : x.user = u) :
    getCount (l ++ [x]) u = x.count := by
  induction l with
  | nil => simp [getCount, List.find?_cons, hx]
  | cons e rest ih =>
    have : e.user ≠ u := h e (by simp)
    simp only [List.cons_append]
    simpa [getCount, List.find?_cons, this] using ih (fun e he => h e (by simp [he]))

lemma getCount_append_other (l : List UnreadEntry) (q : UserId) (x : UnreadEntry)
    (hx : x.user ≠ q) :
    getCount (l ++ [x]) q = getCount l q := by
  induction l with
  | nil => simp [getCount, List.find?_cons, hx]
  | cons e rest ih =>
    by_cases he : e.user = q
    · simp [getCount, List.find?_cons, he]
    · simpa [getCount, List.find?_cons, he] using ih

lemma getCount_absent (l : List UnreadEntry) (u : UserId)
    (h : ∀ e ∈ l, e.user ≠ u) : getCount l u = 0 := by
  induction l with
  | nil => simp [getCount]
  | cons e rest ih =>
    have : e.user ≠ u := h e (by simp)
    simpa [getCount, List.find?_cons, this] using ih (fun e he => h e (by simp [he]))

lemma getCount_nonneg (l : List UnreadEntry) (u : UserId)
    (h : ∀ e ∈ l, 0 ≤ e.count) : 0 ≤ getCount l u := by
  unfold getCount
  cases hf : l.find? (fun e => e.user == u) with
  | none => simp
  | some e => exact h e (List.mem_of_find?_eq_some hf)

/-! ## Lemmas: the chat methods -/

lemma applyIncrement_user (b : Bool) (e : UnreadEntry) :
    (applyIncrement b e).user = e.user := rfl

lemma applyIncrement_nonneg (b : Bool) (e : UnreadEntry) :
    0 ≤ (applyIncrement b e).count := by
  unfold applyIncrement
  by_cases h : e.count + (if b then 1 else -1) < 0
  all_goals simp [h]
  all_goals omega

lemma updateUnreadCount_participants (c : Chat) (u : UserId) (b : Bool) :
    ((c.updateUnreadCount u b).1).participants = c.participants := by
  unfold Chat.updateUnreadCount
  cases updateFirst u (applyIncrement b) c.unreadCounts
  all_goals by_cases hb : b <;> simp [hb]

lemma getUnread_updateTrue_self (c : Chat) (u : UserId)
    (h : 0 ≤ c.getUnreadCount u) :
    ((c.updateUnreadCount u true).1).getUnreadCount u = c.getUnreadCount u + 1 := by
  unfold Chat.updateUnreadCount
  cases hU : updateFirst u (applyIncrement true) c.unreadCounts with
  | none =>
    have habs : ∀ e ∈ c.unreadCounts, e.user ≠ u := (updateFirst_eq_none _ _ _).mp hU
    simp only [Chat.getUnreadCount_def] at *
    rw [getCount_absent _ _ habs] at h ⊢
    simp [getCount_append_absent c.unreadCounts u ({ user := u, count := 1 } : UnreadEntry) habs rfl]
  | some l' =>
    obtain ⟨e, hfind, hl', hl⟩ :=
      getCount_updateFirst_self u (applyIncrement true) (applyIncrement_user true) _ _ hU
    simp only [Chat.getUnreadCount_def] at *
    rw [hl', hl]
    rw [hl] at h
    unfold applyIncrement
    have : ¬ (e.count + 1 < 0) := by omega
    simp [this]

lemma getUnread_update_other (c : Chat) (u q : UserId) (b : Bool) (hq : q ≠ u) :
    ((c.updateUnreadCount u b).1).getUnreadCount q = c.getUnreadCount q := by
  unfold Chat.updateUnreadCount
  cases hU : updateFirst u (applyIncrement b) c.unreadCounts with
  | none =>
    by_cases hb : b
    · simp only [hb, if_pos, Chat.getUnreadCount_def]
      exact getCount_append_other _ _ _ (by simpa using Ne.symm hq)
    · simp [hb]
  | some l' =>
    simp only [Chat.getUnreadCount_def]
    exact getCount_updateFirst_other u q (applyIncrement b) (applyIncrement_user b) hq _ _ hU

lemma unreadNonneg_updateUnreadCount (c : Chat) (u : UserId) (b : Bool)
    (h : ∀ e ∈ c.unreadCounts, 0 ≤ e.count) :
    ∀ e ∈ ((c.updateUnreadCount u b).1).unreadCounts, 0 ≤ e.count := by
  unfold Chat.updateUnreadCount
  cases hU : updateFirst u (applyIncrement b) c.unreadCounts with
  | none =>
    by_cases hb : b
    · simp only [hb, if_pos]
      intro e he
      rcases List.mem_append.mp he with h1 | h1
      · exact h e h1
      · simp at h1; simp [h1]
    · simpa [hb] using h
  | some l' =>
    exact updateFirst_forall u _ (fun e => 0 ≤ e.count) _ _ hU h
      (fun e _ => applyIncrement_nonneg b e)

lemma usersNodup_updateUnreadCount (c : Chat) (u : UserId) (b : Bool)
    (h : (c.unreadCounts.map (fun e => e.user)).Nodup) :
    (((c.updateUnreadCount u b).1).unreadCounts.map (fun e => e.user)).Nodup := by
  unfold Chat.updateUnreadCount
  cases hU : updateFirst u (applyIncrement b) c.unreadCounts with
  | none =>
    have habs : ∀ e ∈ c.unreadCounts, e.user ≠ u := (updateFirst_eq_none _ _ _).mp hU
    by_cases hb : b
    · simp only [hb, if_pos]
      rw [List.map_append]
      simp only [List.map_cons, List.map_nil]
      rw [List.nodup_append]
      refine ⟨h, by simp, ?_⟩
      intro x hx
      simp only [List.mem_map] at hx
      obtain ⟨e, he, rfl⟩ := hx
      simp [habs e he]
    · simpa [hb] using h
  | some l' =>
    rw [map_user_updateFirst u _ (applyIncrement_user b) _ _ hU]
    exact h

/-- One `updateUnreadCount(·, true)` step changes the read counter of
`q` by one exactly when `q` is the updated user (counts assumed
non-negative, as the invariant guarantees). -/
lemma getUnread_step (c : Chat) (p q : UserId)
    (h : ∀ e ∈ c.unreadCounts, 0 ≤ e.count) :
    ((c.updateUnreadCount p true).1).getUnreadCount q
      = c.getUnreadCount q + (if p = q then 1 else 0) := by
  by_cases hpq : p = q
  · subst hpq
    simp [getUnread_updateTrue_self c p (Chat.getUnreadCount_def c p ▸ getCount_nonneg _ _ h)]
  · simp [getUnread_update_other c p q true (Ne.symm hpq), hpq]

/-- Folding `updateUnreadCount(·, true)` over a list of users adds to
each user's counter the number of occurrences of that user in the
list. -/
lemma getUnread_foldl (l : List UserId) (c : Chat) (q : UserId)
    (h : ∀ e ∈ c.unreadCounts, 0 ≤ e.count) :
    ((l.foldl (fun c p => (c.updateUnreadCount p true).1) c).getUnreadCount q)
      = c.getUnreadCount q + l.count q := by
  induction l generalizing c with
  | nil => simp
  | cons p rest ih =>
    simp only [List.foldl_cons]
    rw [ih _ (unreadNonneg_updateUnreadCount c p true h)]
    rw [getUnread_step c p q h]
    rcases eq_or_ne p q with hpq | hpq
    · subst hpq
      rw [if_pos rfl, List.count_cons_self]
      push_cast
      ring
    · rw [if_neg hpq, List.count_cons_of_ne (Ne.symm hpq)]
      ring

lemma foldl_participants (l : List UserId) (c : Chat) :
    ((l.foldl (fun c p => (c.updateUnreadCount p true).1) c).participants)
      = c.participants := by
  induction l generalizing c with
  | nil => rfl
  | cons p rest ih => simp [List.foldl_cons, ih, updateUnreadCount_participants]

lemma foldl_nonneg (l : List UserId) (c : Chat)
    (h : ∀ e ∈ c.unreadCounts, 0 ≤ e.count) :
    ∀ e ∈ ((l.foldl (fun c p => (c.updateUnreadCount p true).1) c).unreadCounts),
      0 ≤ e.count := by
  induction l generalizing c with
  | nil => exact h
  | cons p rest ih =>
    simp only [List.foldl_cons]
    exact ih _ (unreadNonneg_updateUnreadCount c p true h)

/-- Effect of the send-message unread loop on one user's counter:
`+1` for every chat participant other than the sender (with
`socket.userId` unset, for every participant), unchanged for the
sender.  Assumes the participant list has no duplicates and counters
are non-negative. -/
lemma getUnread_processSend (c : Chat) (senderOpt : Option UserId) (q : UserId)
    (h : ∀ e ∈ c.unreadCounts, 0 ≤ e.count)
    (hnodup : c.participants.Nodup) :
    (processSend c senderOpt).getUnreadCount q
      = c.getUnreadCount q +
        (if q ∈ c.participants ∧ some q ≠ senderOpt then 1 else 0) := by
  have hcount : ∀ (l : List UserId), l.Nodup →
      (l.filter (fun p => decide (some p ≠ senderOpt))).count q
        = if q ∈ l ∧ some q ≠ senderOpt then 1 else 0 := by
    intro l hnd
    by_cases hq : q ∈ l ∧ some q ≠ senderOpt
    · rw [if_pos hq]
      refine List.count_eq_one_of_mem (hnd.filter _) ?_
      rw [List.mem_filter]
      exact ⟨hq.1, by simp [hq.2]⟩
    · rw [if_neg hq]
      rw [List.count_eq_zero]
      intro hmem
      rw [List.mem_filter] at hmem
      refine hq ⟨hmem.1, by simpa using hmem.2⟩
  unfold processSend
  rw [getUnread_foldl _ _ _ h]
  rw [hcount c.participants hnodup]
  by_cases hq : q ∈ c.participants ∧ some q ≠ senderOpt <;> simp [hq]

lemma processSend_participants (c : Chat) (senderOpt : Option UserId) :
    (processSend c senderOpt).participants = c.participants := by
  unfold processSend
  exact foldl_participants _ _

lemma processSend_nonneg (c : Chat) (senderOpt : Option UserId)
    (h : ∀ e ∈ c.unreadCounts, 0 ≤ e.count) :
    ∀ e ∈ (processSend c senderOpt).unreadCounts, 0 ≤ e.count := by
  unfold processSend
  exact foldl_nonneg _ _ h

lemma lookupEntry_setEntry_self {α : Type} (l : List (Nat × α)) (k : Nat) (v : α) :
    lookupEntry (setEntry l k v) k = some v := by
  induction l with
  | nil => simp [setEntry, lookupEntry]
  | cons p rest ih =>
    by_cases h : p.1 = k
    · simp [setEntry, h, lookupEntry]
    · simp only [setEntry]
      rw [if_neg h]
      simpa [lookupEntry, List.find?_cons, h] using ih

lemma usersNodup_markAsRead (c : Chat) (u : UserId)
    (h : (c.unreadCounts.map (fun e => e.user)).Nodup) :
    (((c.markAsRead u).1).unreadCounts.map (fun e => e.user)).Nodup := by
  unfold Chat.markAsRead
  cases hU : updateFirst u (fun e => { e with count := 0 }) c.unreadCounts with
  | none => exact h
  | some l' =>
    rw [map_user_updateFirst u (fun e => { e with count := 0 }) (fun e => rfl) _ _ hU]
    exact h

lemma unreadNonneg_markAsRead (c : Chat) (u : UserId)
    (h : ∀ e ∈ c.unreadCounts, 0 ≤ e.count) :
    ∀ e ∈ ((c.markAsRead u).1).unreadCounts, 0 ≤ e.count := by
  unfold Chat.markAsRead
  cases hU : updateFirst u (fun e => { e with count := 0 }) c.unreadCounts with
  | none => exact h
  | some l' =>
    exact updateFirst_forall u (fun e => { e with count := 0 }) (fun e => 0 ≤ e.count) _ _ hU h (fun e _ => le_refl 0)

/-! ## Claim theorems: chat and message documents -/

/-- C2: `markAsRead` leaves the acknowledging participant with an
unread counter of exactly 0 whatever its prior value, does not change
any other participant's counter, and leaves every counter entry of
other participants untouched. -/
theorem claim_C2_markAsRead_resets (c : Chat) (u : UserId) :
    ((c.markAsRead u).1).getUnreadCount u = 0
    ∧ (∀ q, q ≠ u → ((c.markAsRead u).1).getUnreadCount q = c.getUnreadCount q)
    ∧ ((c.markAsRead u).1).unreadCounts.filter (fun e => e.user != u)
        = c.unreadCounts.filter (fun e => e.user != u) := by
  unfold Chat.markAsRead
  cases hU : updateFirst u (fun e => { e with count := 0 }) c.unreadCounts with
  | none =>
    have habs := (updateFirst_eq_none _ _ _).mp hU
    refine ⟨?_, fun q _ => rfl, rfl⟩
    simp only [Chat.getUnreadCount_def]
    exact getCount_absent _ _ habs
  | some l' =>
    have hf : ∀ e : UnreadEntry, ({ e with count := 0 } : UnreadEntry).user = e.user :=
      fun e => rfl
    refine ⟨?_, ?_, ?_⟩
    · obtain ⟨e, hfind, hl', hl⟩ := getCount_updateFirst_self u (fun e => { e with count := 0 }) hf _ _ hU
      simp only [Chat.getUnreadCount_def]
      simpa using hl'
    · intro q hq
      simp only [Chat.getUnreadCount_def]
      exact getCount_updateFirst_other u q (fun e => { e with count := 0 }) hf hq _ _ hU
    · exact filter_ne_updateFirst u (fun e => { e with count := 0 }) hf _ _ hU

/-- Witness for C2 at a concrete chat. -/
theorem claim_C2_witness :
    ((chatA.markAsRead 10).1).getUnreadCount 10 = 0
    ∧ ((chatA.markAsRead 10).1).getUnreadCount 11 = chatA.getUnreadCount 11 :=
  ⟨(claim_C2_markAsRead_resets chatA 10).1,
   (claim_C2_markAsRead_resets chatA 10).2.1 11 (by decide)⟩

/-- C9: the documented invariant (at most one counter entry per user,
all counts non-negative) is preserved by `updateUnreadCount` in both
directions and by `markAsRead`. -/
theorem claim_C9_invariant_preserved (c : Chat) (u : UserId) (h : ChatInv c) :
    ChatInv (c.updateUnreadCount u true).1
    ∧ ChatInv (c.updateUnreadCount u false).1
    ∧ ChatInv (c.markAsRead u).1 := by
  obtain ⟨hnd, hnn⟩ := h
  exact ⟨⟨usersNodup_updateUnreadCount c u true hnd,
          unreadNonneg_updateUnreadCount c u true hnn⟩,
         ⟨usersNodup_updateUnreadCount c u false hnd,
          unreadNonneg_updateUnreadCount c u false hnn⟩,
         ⟨usersNodup_markAsRead c u hnd, unreadNonneg_markAsRead c u hnn⟩⟩

/-- Witness for C9 at a concrete chat. -/
theorem claim_C9_witness :
    ChatInv (chatA.updateUnreadCount 11 true).1 ∧ ChatInv (chatA.markAsRead 10).1 :=
  ⟨(claim_C9_invariant_preserved chatA 11 (by constructor <;> decide)).1,
   (claim_C9_invariant_preserved chatA 10 (by constructor <;> decide)).2.2⟩

/-- C10: when the chat has no counter entry for the user, `markAsRead`
is a pure no-op — the document is returned unchanged and no save is
issued. -/
theorem claim_C10_markAsRead_noop (c : Chat) (u : UserId)
    (h : ∀ e ∈ c.unreadCounts, e.user ≠ u) :
    c.markAsRead u = (c, false) := by
  unfold Chat.markAsRead
  rw [(updateFirst_eq_none _ _ _).mpr h]

/-- Witness for C10: user 12 has no entry in the concrete chat. -/
theorem claim_C10_witness : chatA.markAsRead 12 = (chatA, false) :=
  claim_C10_markAsRead_noop chatA 12 (by decide)

/-- C7 (amended): provided the user is not already in `deletedBy`,
soft-deleting the chat for that user changes only `deletedBy` (all
other fields — participants, unread counters, `lastMessage` — are
untouched), and a subsequent restore returns the document exactly to
its original value. -/
theorem claim_C7_delete_restore (c : Chat) (u : UserId) (h : u ∉ c.deletedBy) :
    (c.deleteForUser u).1 = { c with deletedBy := c.deletedBy ++ [u] }
    ∧ (((c.deleteForUser u).1).restoreForUser u).1 = c := by
  have hany : c.deletedBy.any (fun x => x == u) = false := by
    rw [List.any_eq_false]
    intro x hx
    simp only [beq_iff_eq]
    exact fun hxu => h (hxu ▸ hx)
  have hfirst : (c.deleteForUser u).1 = { c with deletedBy := c.deletedBy ++ [u] } := by
    unfold Chat.deleteForUser
    simp [hany]
  refine ⟨hfirst, ?_⟩
  rw [hfirst]
  unfold Chat.restoreForUser
  have hany2 : (c.deletedBy ++ [u]).any (fun x => x == u) = true := by
    simp
  simp only [hany2, if_pos]
  have hfilter : (c.deletedBy ++ [u]).filter (fun x => x != u) = c.deletedBy := by
    rw [List.filter_append]
    have h1 : c.deletedBy.filter (fun x => x != u) = c.deletedBy := by
      rw [List.filter_eq_self]
      intro a ha
      simp only [bne_iff_ne, ne_eq, decide_eq_true_eq]
      exact fun hau => h (hau ▸ ha)
    have h2 : ([u] : List UserId).filter (fun x => x != u) = [] := by simp
    rw [h1, h2, List.append_nil]
  simp [hfilter]

/-- C7 counterexample: for a chat where user 5 is already soft-deleted,
the delete/restore cycle does not return `deletedBy` to its prior
value (the delete is a no-op, the restore strips the pre-existing
marker). -/
theorem claim_C7_counterexample :
    ((((chatB.deleteForUser 5).1).restoreForUser 5).1).deletedBy ≠ chatB.deletedBy := by
  decide

/-- Witness for C7 at a concrete chat (user 5 not yet deleted). -/
theorem claim_C7_witness :
    (((chatA.deleteForUser 5).1).restoreForUser 5).1 = chatA :=
  (claim_C7_delete_restore chatA 5 (by decide)).2

/-- C5 (amended): `lastMessage` reflects the most recently created
message regardless of later soft-deletes — creation overwrites the
summary with the new message, while soft-deleting any message leaves
the chat document (and hence `lastMessage`) completely unchanged, so
the summary may point at a deleted message. -/
theorem claim_C5_lastMessage_on_create_and_delete (s : MsgSystem) (mid : Nat)
    (sender : UserId) (text : Option String) (now : Nat) (mid2 : Nat) :
    (s.createMessage mid sender text now).chat.lastMessage
      = some { id := mid, text := text.getD "", sender := sender,
               timestamp := now, isRead := false }
    ∧ (s.softDeleteMsg mid2).chat = s.chat :=
  ⟨rfl, rfl⟩

/-- C5 counterexample: create one message, then soft-delete it; the
chat's `lastMessage` still points at the deleted message, so it does
not reflect the most recently created non-deleted message. -/
theorem claim_C5_counterexample :
    lastMessageCorrect ((sysA.createMessage 1 10 (some "hello") 100).softDeleteMsg 1)
      = false := by
  decide

lemma usersNodup_addReaction (m : Message) (u : UserId) (e : String)
    (h : (m.reactions.map (fun r => r.user)).Nodup) :
    (((m.addReaction u e).1).reactions.map (fun r => r.user)).Nodup := by
  unfold Message.addReaction
  by_cases hc : m.reactions.any (fun r => r.user == u && r.emoji == e) = true
  · simp only [hc, if_pos]
    exact ((List.filter_sublist _).map (fun r : Reaction => r.user)).nodup h
  · simp only [hc, if_neg, Bool.false_eq_true, not_false_eq_true]
    rw [List.map_append, List.nodup_append]
    refine ⟨((List.filter_sublist _).map (fun r : Reaction => r.user)).nodup h, by simp, ?_⟩
    intro x hx
    simp only [List.mem_map] at hx
    obtain ⟨r, hr, rfl⟩ := hx
    rw [List.mem_filter] at hr
    have : r.user ≠ u := by simpa using hr.2
    simp [this]

lemma addReaction_present (n : Message) (u : UserId) (e : String)
    (h : n.reactions.any (fun r => r.user == u && r.emoji == e) = true) :
    ((n.addReaction u e).1).reactions
      = n.reactions.filter (fun r => !(r.user == u && r.emoji == e)) := by
  unfold Message.addReaction
  simp [h]

lemma addReaction_absent (n : Message) (u : UserId) (e : String)
    (h : n.reactions.any (fun r => r.user == u && r.emoji == e) = false) :
    ((n.addReaction u e).1).reactions
      = n.reactions.filter (fun r => r.user != u) ++ [{ user := u, emoji := e }] := by
  unfold Message.addReaction
  simp [h]

/-- C6 (amended): provided the participant does not already hold the
exact `(user, emoji)` reaction, toggling it twice leaves the
participant with zero reactions on the message; one `addReaction`
replaces any prior reaction of the participant, leaving exactly the
new one; and `addReaction` preserves at-most-one-reaction-per-
participant, hence so does every sequence of `addReaction` calls. -/
theorem claim_C6_reaction_toggle (m : Message) (u : UserId) (e : String)
    (h : hasReaction m u e = false) :
    userReactions (((m.addReaction u e).1).addReaction u e).1 u = []
    ∧ ((m.addReaction u e).1).reactions
        = m.reactions.filter (fun r => r.user != u) ++ [{ user := u, emoji := e }]
    ∧ userReactions (m.addReaction u e).1 u = [{ user := u, emoji := e }]
    ∧ (∀ (n : Message) (u' : UserId) (e' : String),
        ((n.reactions.map (fun r => r.user)).Nodup) →
        (((n.addReaction u' e').1.reactions.map (fun r => r.user)).Nodup))
    ∧ (∀ (n : Message) (seq : List (UserId × String)),
        ((n.reactions.map (fun r => r.user)).Nodup) →
        (((seq.foldl (fun mm p => (mm.addReaction p.1 p.2).1) n).reactions.map
            (fun r => r.user)).Nodup)) := by
  have hany : m.reactions.any (fun r => r.user == u && r.emoji == e) = false := h
  have h1 := addReaction_absent m u e hany
  have h3 : userReactions (m.addReaction u e).1 u = [{ user := u, emoji := e }] := by
    unfold userReactions
    rw [h1, List.filter_append]
    have hA : (m.reactions.filter (fun r => r.user != u)).filter (fun r => r.user == u)
        = [] := by
      rw [List.filter_filter, List.filter_eq_nil_iff]
      intro r _
      by_cases hru : r.user = u <;> simp [hru]
    rw [hA]
    simp
  have h2 : userReactions (((m.addReaction u e).1).addReaction u e).1 u = [] := by
    have hany2 : ((m.addReaction u e).1).reactions.any
        (fun r => r.user == u && r.emoji == e) = true := by
      rw [h1]
      simp
    unfold userReactions
    rw [addReaction_present _ _ _ hany2, h1, List.filter_append]
    have hx : ([{ user := u, emoji := e }] : List Reaction).filter
        (fun r => !(r.user == u && r.emoji == e)) = [] := by simp
    rw [hx, List.append_nil, List.filter_filter, List.filter_filter,
      List.filter_eq_nil_iff]
    intro r _
    by_cases hru : r.user = u <;> simp [hru]
  exact ⟨h2, h1, h3, fun n u' e' hnd => usersNodup_addReaction n u' e' hnd,
    fun n seq => by
      induction seq generalizing n with
      | nil => exact fun hnd => hnd
      | cons p rest ih =>
        intro hnd
        exact ih _ (usersNodup_addReaction n p.1 p.2 hnd)⟩

/-- C6 counterexample: on a message where user 7 already reacted with
`"x"`, applying `addReaction(7, "x")` twice leaves user 7 with one
reaction, not zero — the double toggle is not universally
reaction-clearing. -/
theorem claim_C6_counterexample :
    userReactions (((msgA.addReaction 7 "x").1).addReaction 7 "x").1 7 ≠ [] := by
  decide

/-- Witness for C6: user 7 holds no `"y"` reaction on the concrete
message. -/
theorem claim_C6_witness :
    userReactions (((msgA.addReaction 7 "y").1).addReaction 7 "y").1 7 = []
    ∧ userReactions (msgA.addReaction 7 "y").1 7 = [{ user := 7, emoji := "y" }] :=
  ⟨(claim_C6_reaction_toggle msgA 7 "y" (by decide)).1,
   (claim_C6_reaction_toggle msgA 7 "y" (by decide)).2.2.1⟩

lemma foldl_processSend (chat : Chat) (p : UserId) (senders : List UserId)
    (hnn : ∀ e ∈ chat.unreadCounts, 0 ≤ e.count)
    (hnodup : chat.participants.Nodup)
    (hp : p ∈ chat.participants)
    (hs : ∀ x ∈ senders, x ≠ p) :
    (senders.foldl (fun c x => processSend c (some x)) chat).getUnreadCount p
      = chat.getUnreadCount p + senders.length := by
  induction senders generalizing chat with
  | nil => simp
  | cons s0 rest ih =>
    simp only [List.foldl_cons]
    rw [ih (processSend chat (some s0))
        (processSend_nonneg chat (some s0) hnn)
        (by rw [processSend_participants]; exact hnodup)
        (by rw [processSend_participants]; exact hp)
        (fun x hx => hs x (by simp [hx]))]
    rw [getUnread_processSend chat (some s0) p hnn hnodup]
    have hcond : p ∈ chat.participants ∧ some p ≠ some s0 := by
      refine ⟨hp, ?_⟩
      have : s0 ≠ p := hs s0 (by simp)
      simpa using Ne.symm this
    rw [if_pos hcond, List.length_cons]
    push_cast
    ring

/-! ## Claim theorems: the socket handlers -/

/-- C1: a `send_message` from an authenticated socket on an existing
chat stores back a chat in which every participant other than the
sender gained exactly one unread count (entries are created at 1 when
absent, which `getUnreadCount = 0 → = 1` covers), the sender's counter
is untouched, and N sends by other participants starting from a zero
counter leave the counter at exactly N.  Counters are assumed
non-negative and the participant list duplicate-free, as the document
invariant guarantees. -/
theorem claim_C1_send_increments (st : ServerState) (sid : SocketId)
    (chatId : ChatId) (text : String) (sess : Session) (sender : UserId)
    (chat : Chat) (p : UserId)
    (hsess : findSession st sid = some sess)
    (hauth : sess.userId = some sender)
    (hchat : lookupEntry st.chats chatId = some chat)
    (hnn : ∀ e ∈ chat.unreadCounts, 0 ≤ e.count)
    (hnodup : chat.participants.Nodup)
    (hp : p ∈ chat.participants) :
    lookupEntry ((handleSendMessage st sid chatId text).1).chats chatId
      = some (processSend chat (some sender))
    ∧ (p ≠ sender →
        (processSend chat (some sender)).getUnreadCount p
          = chat.getUnreadCount p + 1)
    ∧ (processSend chat (some sender)).getUnreadCount sender
        = chat.getUnreadCount sender
    ∧ (∀ (senders : List UserId), (∀ x ∈ senders, x ≠ p) →
        chat.getUnreadCount p = 0 →
        (senders.foldl (fun c x => processSend c (some x)) chat).getUnreadCount p
          = senders.length) := by
  have hsender : (findSession st sid).bind (fun s => s.userId) = some sender := by
    rw [hsess]
    exact hauth
  refine ⟨?_, ?_, ?_, ?_⟩
  · unfold handleSendMessage
    simp only [hchat, hsender]
    exact lookupEntry_setEntry_self st.chats chatId _
  · intro hps
    rw [getUnread_processSend chat (some sender) p hnn hnodup]
    rw [if_pos ⟨hp, by simpa using hps⟩]
  · rw [getUnread_processSend chat (some sender) sender hnn hnodup]
    rw [if_neg (by simp)]
    ring
  · intro senders hs h0
    rw [foldl_processSend chat p senders hnn hnodup hp hs, h0]
    simp

/-- Witness for C1 at a concrete authenticated state: user 10 sends on
chat 5, user 11's counter goes from 0 to 1, the sender's stays 0, and
three sends by user 10 leave user 11's counter at 3. -/
theorem claim_C1_witness :
    lookupEntry ((handleSendMessage stAuth 1 5 "hi").1).chats 5
      = some (processSend chatC (some 10))
    ∧ (processSend chatC (some 10)).getUnreadCount 11 = chatC.getUnreadCount 11 + 1
    ∧ (([10, 10, 10] : List UserId).foldl
        (fun c x => processSend c (some x)) chatC).getUnreadCount 11 = 3 := by
  have h := claim_C1_send_increments stAuth 1 5 "hi"
    { sid := 1, userId := some 10, rooms := [Room.chat 5] } 10 chatC 11
    (by decide) (by decide) (by decide) (by decide) (by decide) (by decide)
  exact ⟨h.1, h.2.1 (by decide), h.2.2.2 [10, 10, 10] (by decide) (by decide)⟩

/-- C3 (amended): state-changing events from an unauthenticated socket
are not rejected — they are processed exactly like authenticated ones.
`join_chat`/`leave_chat` touch only the socket's room set (no chat
document is mutated), but `send_message` performs the full fan-out and
increments the unread counter of **every** participant (the
sender-exclusion test compares against the unset `socket.userId`, which
matches no participant); in all cases the connection stays open. -/
theorem claim_C3_unauthenticated_send_processed (st : ServerState)
    (sid : SocketId) (c : ChatId) (chatId : ChatId) (text : String)
    (sess : Session) (chat : Chat) (p : UserId)
    (hsess : findSession st sid = some sess)
    (hunauth : sess.userId = none)
    (hchat : lookupEntry st.chats chatId = some chat)
    (hnn : ∀ e ∈ chat.unreadCounts, 0 ≤ e.count)
    (hnodup : chat.participants.Nodup)
    (hp : p ∈ chat.participants) :
    (handleJoinChat st sid c).1.chats = st.chats
    ∧ (handleLeaveChat st sid c).1.chats = st.chats
    ∧ ((handleJoinChat st sid c).1.sessions.map (fun s => s.sid))
        = st.sessions.map (fun s => s.sid)
    ∧ lookupEntry ((handleSendMessage st sid chatId text).1).chats chatId
        = some (processSend chat none)
    ∧ (processSend chat none).getUnreadCount p = chat.getUnreadCount p + 1
    ∧ findSession ((handleSendMessage st sid chatId text).1) sid = some sess := by
  have hsender : (findSession st sid).bind (fun s => s.userId) = none := by
    rw [hsess]
    exact hunauth
  refine ⟨rfl, rfl, ?_, ?_, ?_, ?_⟩
  · simp only [handleJoinChat, modifySession, List.map_map]
    apply List.map_congr_left
    intro s _
    by_cases hcs : s.sid = sid <;> simp [hcs]
  · unfold handleSendMessage
    simp only [hchat, hsender]
    exact lookupEntry_setEntry_self st.chats chatId _
  · rw [getUnread_processSend chat none p hnn hnodup]
    rw [if_pos ⟨hp, by simp⟩]
  · unfold handleSendMessage
    simp only [hchat, hsender]
    exact hsess

/-- C3 counterexample: from a concrete state with an unauthenticated
socket, `send_message` both mutates the chat document (participant 10's
counter becomes 1) and fans the message out — contradicting the claimed
silent rejection / no-op. -/
theorem claim_C3_counterexample :
    (lookupEntry ((handleSendMessage stUnauth 1 5 "hi").1).chats 5).map
        (fun ch => ch.getUnreadCount 10) = some 1
    ∧ (handleSendMessage stUnauth 1 5 "hi").2 ≠ [] := by
  decide

/-- Witness for C3 (amended) at the concrete unauthenticated state. -/
theorem claim_C3_witness :
    lookupEntry ((handleSendMessage stUnauth 1 5 "hi").1).chats 5
      = some (processSend chatU none)
    ∧ (processSend chatU none).getUnreadCount 10 = chatU.getUnreadCount 10 + 1 := by
  have h := claim_C3_unauthenticated_send_processed stUnauth 1 7 5 "hi"
    { sid := 1, userId := none, rooms := [Room.chat 5] } chatU 10
    (by decide) (by decide) (by decide) (by decide) (by decide) (by decide)
  exact ⟨h.2.2.2.1, h.2.2.2.2.1⟩

lemma countP_unique_sid (l : List Session) (t : Session) (q : Session → Bool)
    (hnodup : (l.map (fun s => s.sid)).Nodup) (ht : t ∈ l) :
    l.countP (fun s => (s.sid == t.sid) && q s) = if q t then 1 else 0 := by
  induction l with
  | nil => cases ht
  | cons a rest ih =>
    rw [List.map_cons, List.nodup_cons] at hnodup
    rcases List.mem_cons.mp ht with rfl | htr
    · rw [List.countP_cons]
      have h0 : rest.countP (fun s => (s.sid == t.sid) && q s) = 0 := by
        rw [List.countP_eq_zero]
        intro s hs
        have hne : s.sid ≠ t.sid := by
          intro hh
          exact hnodup.1 (hh ▸ List.mem_map_of_mem _ hs)
        simp [hne]
      rw [h0]
      by_cases hq : q t <;> simp [hq]
    · have hne : a.sid ≠ t.sid := by
        intro hh
        exact hnodup.1 (hh ▸ List.mem_map_of_mem _ htr)
      rw [List.countP_cons]
      have hz : ((a.sid == t.sid) && q a) = false := by simp [hne]
      rw [hz]
      simp [ih hnodup.2 htr]

lemma handleSendMessage_emits (st : ServerState) (sid : SocketId)
    (chatId : ChatId) (text : String) :
    (handleSendMessage st sid chatId text).2
      = (st.sessions.filter
          (fun t => t.sid ≠ sid ∧ Room.chat chatId ∈ t.rooms)).map
          (fun t => Emit.newMessage t.sid chatId text) := by
  unfold handleSendMessage
  cases lookupEntry st.chats chatId <;> rfl

/-- C8: a `send_message` delivers exactly one `new_message` to every
socket joined to the chat's room other than the sending socket, and
zero to the sender (and zero to sockets not in the room).  Socket ids
are assumed unique, as they are on a live server. -/
theorem claim_C8_room_fanout (st : ServerState) (sid : SocketId)
    (chatId : ChatId) (text : String) (t : Session)
    (hnodup : (st.sessions.map (fun s => s.sid)).Nodup)
    (ht : t ∈ st.sessions) :
    countNewMessageTo t.sid (handleSendMessage st sid chatId text).2
      = if t.sid ≠ sid ∧ Room.chat chatId ∈ t.rooms then 1 else 0 := by
  rw [handleSendMessage_emits]
  unfold countNewMessageTo
  rw [List.countP_map, List.countP_filter]
  have hpred : ∀ s : Session,
      (((fun e : Emit =>
          match e with
          | .newMessage tg _ _ => tg == t.sid
          | _ => false) ∘ fun s : Session => Emit.newMessage s.sid chatId text) s
        && decide (s.sid ≠ sid ∧ Room.chat chatId ∈ s.rooms))
      = ((s.sid == t.sid) && decide (s.sid ≠ sid ∧ Room.chat chatId ∈ s.rooms)) := by
    intro s
    rfl
  rw [List.countP_congr (fun s _ => by rw [hpred s])]
  rw [countP_unique_sid st.sessions t _ hnodup ht]
  by_cases hq : t.sid ≠ sid ∧ Room.chat chatId ∈ t.rooms <;> simp [hq]

/-- Witness for C8 at the concrete authenticated state: socket 2
(joined, not the sender) receives exactly one delivery, the sending
socket 1 receives none. -/
theorem claim_C8_witness :
    countNewMessageTo 2 (handleSendMessage stAuth 1 5 "hi").2 = 1
    ∧ countNewMessageTo 1 (handleSendMessage stAuth 1 5 "hi").2 = 0 := by
  have h2 := claim_C8_room_fanout stAuth 1 5 "hi"
    { sid := 2, userId := some 11, rooms := [Room.chat 5] } (by decide) (by decide)
  have h1 := claim_C8_room_fanout stAuth 1 5 "hi"
    { sid := 1, userId := some 10, rooms := [Room.chat 5] } (by decide) (by decide)
  refine ⟨?_, ?_⟩
  · rw [h2]
    decide
  · rw [h1]
    decide

/-! ## Lemmas: session bookkeeping for the trace semantics -/

lemma find?_map_pred {α : Type} (l : List α) (g : α → α) (p : α → Bool)
    (hp : ∀ x, p (g x) = p x) :
    (l.map g).find? p = (l.find? p).map g := by
  induction l with
  | nil => rfl
  | cons a rest ih =>
    cases hpa : p a with
    | true => simp [List.find?_cons, hp, hpa]
    | false => simpa [List.find?_cons, hp, hpa] using ih

lemma find?_filter_of_imp {α : Type} (l : List α) (p r : α → Bool)
    (h : ∀ x, p x = true → r x = true) :
    (l.filter r).find? p = l.find? p := by
  induction l with
  | nil => rfl
  | cons a rest ih =>
    cases hpa : p a with
    | true =>
      rw [List.filter_cons, h a hpa]
      simp [List.find?_cons, hpa]
    | false =>
      rw [List.filter_cons]
      cases hra : r a with
      | true => simpa [List.find?_cons, hpa] using ih
      | false => simpa [List.find?_cons, hpa] using ih

lemma findSession_modify (st : ServerState) (sid : SocketId)
    (f : Session → Session) (hf : ∀ x, (f x).sid = x.sid) (q : SocketId) :
    findSession (modifySession st sid f) q
      = (findSession st q).map (fun s => if s.sid = sid then f s else s) := by
  unfold findSession modifySession
  exact find?_map_pred st.sessions _ _ (fun x => by by_cases hx : x.sid = sid <;> simp [hx, hf])

lemma map_sid_modify (st : ServerState) (sid : SocketId)
    (f : Session → Session) (hf : ∀ x, (f x).sid = x.sid) :
    ((modifySession st sid f).sessions.map (fun s => s.sid))
      = st.sessions.map (fun s => s.sid) := by
  unfold modifySession
  rw [List.map_map]
  apply List.map_congr_left
  intro s _
  by_cases hx : s.sid = sid <;> simp [hx, hf]

lemma sessionAuthed_modify_uid (st : ServerState) (sid : SocketId)
    (f : Session → Session) (hf : ∀ x, (f x).sid = x.sid)
    (hu : ∀ x, (f x).userId = x.userId) (q : SocketId) :
    sessionAuthed (modifySession st sid f) q = sessionAuthed st q := by
  unfold sessionAuthed
  rw [findSession_modify st sid f hf q]
  cases findSession st q with
  | none => rfl
  | some sess => by_cases hx : sess.sid = sid <;> simp [hx, hu]

lemma sessionAuthed_chats (st : ServerState) (chats' : List (ChatId × Chat))
    (q : SocketId) :
    sessionAuthed { st with chats := chats' } q = sessionAuthed st q := rfl

lemma sidsOk_chats (st : ServerState) (chats' : List (ChatId × Chat))
    (alive : List SocketId) (h : SidsOk st alive) :
    SidsOk { st with chats := chats' } alive := h

lemma findSession_append_one (st : ServerState) (fresh : Session) (q : SocketId) :
    findSession { st with sessions := st.sessions ++ [fresh] } q
      = ((findSession st q).orElse (fun _ => if fresh.sid == q then some fresh else none)) := by
  unfold findSession
  simp only
  induction st.sessions with
  | nil => by_cases h : fresh.sid = q <;> simp [List.find?_cons, h]
  | cons a rest ih =>
    by_cases ha : (a.sid == q) = true
    · simp [List.find?_cons, ha]
    · have ha' : (a.sid == q) = false := by simpa using ha
      simp only [List.cons_append, List.find?_cons, ha'] at *
      exact ih

lemma sessionAuthed_connect (st : ServerState) (sid q : SocketId) :
    sessionAuthed (handleConnect st sid).1 q = sessionAuthed st q := by
  unfold sessionAuthed handleConnect
  simp only
  rw [findSession_append_one]
  cases h : findSession st q with
  | some sess => rfl
  | none =>
    by_cases hq : sid = q <;> simp [Option.orElse, hq]

lemma sidsOk_connect (st : ServerState) (alive : List SocketId) (sid : SocketId)
    (h : SidsOk st alive) (hs : sid ∉ alive) :
    SidsOk (handleConnect st sid).1 (sid :: alive) := by
  obtain ⟨hnd, hmem⟩ := h
  constructor
  · unfold handleConnect
    simp only [List.map_append, List.map_cons, List.map_nil]
    rw [List.nodup_append]
    refine ⟨hnd, by simp, ?_⟩
    intro x hx
    simp only [List.mem_cons, List.not_mem_nil, or_false]
    intro hxs
    exact hs (hxs ▸ (hmem x).mp hx)
  · intro x
    unfold handleConnect
    simp only [List.map_append, List.map_cons, List.map_nil, List.mem_append,
      List.mem_cons, List.mem_singleton, List.not_mem_nil, or_false]
    rw [hmem x]
    tauto

lemma findSession_disconnect_ne (st : ServerState) (s' q : SocketId) (hq : q ≠ s') :
    findSession { st with sessions := st.sessions.filter (fun s => s.sid ≠ s') } q
      = findSession st q := by
  unfold findSession
  simp only
  apply find?_filter_of_imp
  intro x hx
  have : x.sid = q := by simpa using hx
  simp [this, hq]

lemma findSession_disconnect_self (st : ServerState) (s' : SocketId) :
    findSession { st with sessions := st.sessions.filter (fun s => s.sid ≠ s') } s'
      = none := by
  unfold findSession
  simp only
  rw [List.find?_eq_none]
  intro x hx
  rw [List.mem_filter] at hx
  have : x.sid ≠ s' := by simpa using hx.2
  simp [this]

lemma sidsOk_disconnect (st : ServerState) (alive : List SocketId) (s' : SocketId)
    (h : SidsOk st alive) :
    SidsOk { st with sessions := st.sessions.filter (fun s => s.sid ≠ s') }
      (alive.filter (fun x => x ≠ s')) := by
  obtain ⟨hnd, hmem⟩ := h
  have hmap : (st.sessions.filter (fun s => s.sid ≠ s')).map (fun s => s.sid)
      = (st.sessions.map (fun s => s.sid)).filter (fun x => x ≠ s') := by
    induction st.sessions with
    | nil => rfl
    | cons a rest ih =>
      by_cases ha : a.sid = s'
      · simpa [List.filter_cons, ha] using ih
      · simpa [List.filter_cons, ha] using ih
  constructor
  · rw [hmap]
    exact hnd.filter _
  · intro x
    rw [hmap, List.mem_filter, List.mem_filter]
    rw [hmem x]

lemma sessionAuthed_eq_of_sessions (st1 st2 : ServerState)
    (h : st1.sessions = st2.sessions) (q : SocketId) :
    sessionAuthed st1 q = sessionAuthed st2 q := by
  unfold sessionAuthed findSession
  rw [h]

lemma sidsOk_iff_of_sessions (st1 st2 : ServerState) (alive : List SocketId)
    (h : st1.sessions = st2.sessions) : SidsOk st1 alive ↔ SidsOk st2 alive := by
  unfold SidsOk
  rw [h]

lemma sessionAuthed_auth_self (st : ServerState) (sid : SocketId) (uid : UserId)
    (sess : Session) (h : findSession st sid = some sess) :
    sessionAuthed (handleAuthenticate st sid (some uid)).1 sid = true := by
  have hsid : sess.sid = sid := by
    have := List.find?_some h
    simpa using this
  rw [sessionAuthed_eq_of_sessions (handleAuthenticate st sid (some uid)).1
    (modifySession st sid
      (fun s => { s with userId := some uid, rooms := joinRoom s.rooms (.user uid) }))
    rfl sid]
  unfold sessionAuthed
  rw [findSession_modify st sid (fun s => { s with userId := some uid, rooms := joinRoom s.rooms (Room.user uid) }) (fun x => rfl) sid, h]
  simp [hsid]

lemma sessionAuthed_auth_other (st : ServerState) (sid : SocketId) (uid : UserId)
    (q : SocketId) (hq : q ≠ sid) :
    sessionAuthed (handleAuthenticate st sid (some uid)).1 q = sessionAuthed st q := by
  rw [sessionAuthed_eq_of_sessions (handleAuthenticate st sid (some uid)).1
    (modifySession st sid
      (fun s => { s with userId := some uid, rooms := joinRoom s.rooms (.user uid) }))
    rfl q]
  unfold sessionAuthed
  rw [findSession_modify st sid (fun s => { s with userId := some uid, rooms := joinRoom s.rooms (Room.user uid) }) (fun x => rfl) q]
  cases hfq : findSession st q with
  | none => rfl
  | some sess =>
    have hsid : sess.sid = q := by
      have := List.find?_some hfq
      simpa using this
    simp [hsid, hq]

lemma sidsOk_auth (st : ServerState) (alive : List SocketId) (sid : SocketId)
    (uid : UserId) (h : SidsOk st alive) :
    SidsOk (handleAuthenticate st sid (some uid)).1 alive := by
  rw [sidsOk_iff_of_sessions (handleAuthenticate st sid (some uid)).1
    (modifySession st sid
      (fun s => { s with userId := some uid, rooms := joinRoom s.rooms (.user uid) }))
    alive rfl]
  obtain ⟨hnd, hmem⟩ := h
  constructor
  · rw [map_sid_modify st sid (fun s => { s with userId := some uid, rooms := joinRoom s.rooms (Room.user uid) }) (fun x => rfl)]
    exact hnd
  · intro x
    rw [map_sid_modify st sid (fun s => { s with userId := some uid, rooms := joinRoom s.rooms (Room.user uid) }) (fun x => rfl)]
    exact hmem x

lemma countStatusFrom_append (s : SocketId) (stat : Status) (o1 o2 : List Emit) :
    countStatusFrom s stat (o1 ++ o2)
      = countStatusFrom s stat o1 + countStatusFrom s stat o2 :=
  List.countP_append _ _ _

lemma countStatusFrom_handleSend (s : SocketId) (stat : Status)
    (st : ServerState) (sid : SocketId) (c : ChatId) (t : String) :
    countStatusFrom s stat (handleSendMessage st sid c t).2 = 0 := by
  rw [handleSendMessage_emits]
  unfold countStatusFrom
  rw [List.countP_map]
  simp [Function.comp_def]

lemma countStatusFrom_handleTyping (s : SocketId) (stat : Status)
    (st : ServerState) (sid : SocketId) (c : ChatId) (b : Bool) :
    countStatusFrom s stat (handleTyping st sid c b).2 = 0 := by
  unfold handleTyping countStatusFrom
  simp only
  rw [List.countP_map]
  simp [Function.comp_def]

lemma runEvents_cons (st : ServerState) (e : InEvent) (rest : List InEvent) :
    (runEvents st (e :: rest)).2
      = (processEvent st e).2 ++ (runEvents (processEvent st e).1 rest).2 := rfl

lemma runEvents_online (s : SocketId) (evs : List InEvent) :
    ∀ st : ServerState,
      countStatusFrom s .online (runEvents st evs).2 = countSuccAuth s evs := by
  induction evs with
  | nil =>
    intro st
    rfl
  | cons e rest ih =>
    intro st
    rw [runEvents_cons, countStatusFrom_append, ih]
    cases e with
    | connect sid => simp [processEvent, handleConnect, countStatusFrom, countSuccAuth]
    | authenticate sid r =>
      cases r with
      | none => simp [processEvent, handleAuthenticate, countStatusFrom, countSuccAuth]
      | some u =>
        by_cases hs : sid = s <;>
          · simp [processEvent, handleAuthenticate, countStatusFrom, countSuccAuth, hs]
    | joinChat sid c => simp [processEvent, handleJoinChat, countStatusFrom, countSuccAuth]
    | leaveChat sid c => simp [processEvent, handleLeaveChat, countStatusFrom, countSuccAuth]
    | sendMessage sid c t =>
      rw [show (processEvent st (.sendMessage sid c t)).2
          = (handleSendMessage st sid c t).2 from rfl]
      rw [countStatusFrom_handleSend]
      simp [countSuccAuth]
    | typingStart sid c =>
      rw [show (processEvent st (.typingStart sid c)).2
          = (handleTyping st sid c true).2 from rfl]
      rw [countStatusFrom_handleTyping]
      simp [countSuccAuth]
    | typingStop sid c =>
      rw [show (processEvent st (.typingStop sid c)).2
          = (handleTyping st sid c false).2 from rfl]
      rw [countStatusFrom_handleTyping]
      simp [countSuccAuth]
    | disconnect sid =>
      cases hf : findSession st sid with
      | none => simp [processEvent, handleDisconnect, hf, countStatusFrom, countSuccAuth]
      | some sess =>
        cases hu : sess.userId with
        | none =>
          simp [processEvent, handleDisconnect, hf, hu, countStatusFrom, countSuccAuth]
        | some uid =>
          simp [processEvent, handleDisconnect, hf, hu, countStatusFrom, countSuccAuth]

lemma sidsOk_modify (st : ServerState) (alive : List SocketId) (sid : SocketId)
    (f : Session → Session) (hf : ∀ x, (f x).sid = x.sid) (h : SidsOk st alive) :
    SidsOk (modifySession st sid f) alive := by
  obtain ⟨hnd, hmem⟩ := h
  constructor
  · rw [map_sid_modify st sid f hf]
    exact hnd
  · intro x
    rw [map_sid_modify st sid f hf]
    exact hmem x

lemma findSession_isSome_of_mem (st : ServerState) (alive : List SocketId)
    (h : SidsOk st alive) (x : SocketId) (hx : x ∈ alive) :
    ∃ sess, findSession st x = some sess := by
  have hmap : x ∈ st.sessions.map (fun s => s.sid) := (h.2 x).mpr hx
  rw [List.mem_map] at hmap
  obtain ⟨sess, hmem, hxx⟩ := hmap
  have hsome : (st.sessions.find? (fun s => s.sid == x)).isSome := by
    rw [List.find?_isSome]
    exact ⟨sess, hmem, by simp [hxx]⟩
  obtain ⟨r, hr⟩ := Option.isSome_iff_exists.mp hsome
  exact ⟨r, hr⟩

lemma handleSendMessage_sessions (st : ServerState) (sid : SocketId)
    (c : ChatId) (t : String) :
    (handleSendMessage st sid c t).1.sessions = st.sessions := by
  unfold handleSendMessage
  cases lookupEntry st.chats c <;> rfl

lemma handleDisconnect_none (st : ServerState) (sid : SocketId) (sess : Session)
    (hsess : findSession st sid = some sess) (hu : sess.userId = none) :
    (handleDisconnect st sid).1.sessions
      = st.sessions.filter (fun ss => ss.sid ≠ sid)
    ∧ (handleDisconnect st sid).2 = [] := by
  unfold handleDisconnect
  rw [hsess]
  simp [hu]

lemma handleDisconnect_some (st : ServerState) (sid : SocketId) (sess : Session)
    (uid : UserId) (hsess : findSession st sid = some sess)
    (hu : sess.userId = some uid) :
    (handleDisconnect st sid).1.sessions
      = st.sessions.filter (fun ss => ss.sid ≠ sid)
    ∧ (handleDisconnect st sid).2 = [Emit.statusBroadcast sid uid Status.offline] := by
  unfold handleDisconnect
  rw [hsess]
  simp [hu]

lemma runEvents_offline (s : SocketId) (evs : List InEvent) :
    ∀ (st : ServerState) (alive : List SocketId),
      wfTrace alive evs = true → SidsOk st alive →
      countStatusFrom s .offline (runEvents st evs).2
        = specOfflineCount s (sessionAuthed st s) evs := by
  induction evs with
  | nil =>
    intro st alive _ _
    rfl
  | cons e rest ih =>
    intro st alive hwf hinv
    rw [runEvents_cons, countStatusFrom_append]
    cases e with
    | connect sid =>
      simp only [wfTrace, Bool.and_eq_true] at hwf
      have hs : sid ∉ alive := by simpa using hwf.1
      simp only [processEvent]
      rw [ih (handleConnect st sid).1 (sid :: alive) hwf.2
        (sidsOk_connect st alive sid hinv hs)]
      rw [sessionAuthed_connect st sid s]
      simp [handleConnect, countStatusFrom, specOfflineCount]
    | authenticate sid r =>
      simp only [wfTrace, InEvent.sid, Bool.and_eq_true] at hwf
      cases r with
      | none =>
        simp only [processEvent]
        rw [show (handleAuthenticate st sid none).1 = st from rfl]
        rw [ih st alive hwf.2 hinv]
        simp [handleAuthenticate, countStatusFrom, specOfflineCount]
      | some u =>
        simp only [processEvent]
        rw [ih (handleAuthenticate st sid (some u)).1 alive hwf.2
          (sidsOk_auth st alive sid u hinv)]
        by_cases hs : sid = s
        · subst hs
          have hmem : sid ∈ alive := by simpa using hwf.1
          obtain ⟨sess, hsess⟩ := findSession_isSome_of_mem st alive hinv sid hmem
          rw [sessionAuthed_auth_self st sid u sess hsess]
          simp [handleAuthenticate, countStatusFrom, specOfflineCount]
        · rw [sessionAuthed_auth_other st sid u s (Ne.symm hs)]
          have hb : (sid == s) = false := by simp [hs]
          simp [handleAuthenticate, countStatusFrom, specOfflineCount, hb]
    | joinChat sid c =>
      simp only [wfTrace, InEvent.sid, Bool.and_eq_true] at hwf
      simp only [processEvent]
      rw [show (handleJoinChat st sid c).1
          = modifySession st sid
              (fun ss => { ss with rooms := joinRoom ss.rooms (Room.chat c) }) from rfl]
      rw [ih _ alive hwf.2 (sidsOk_modify st alive sid
        (fun ss => { ss with rooms := joinRoom ss.rooms (Room.chat c) })
        (fun x => rfl) hinv)]
      rw [sessionAuthed_modify_uid st sid
        (fun ss => { ss with rooms := joinRoom ss.rooms (Room.chat c) })
        (fun x => rfl) (fun x => rfl) s]
      simp [handleJoinChat, countStatusFrom, specOfflineCount]
    | leaveChat sid c =>
      simp only [wfTrace, InEvent.sid, Bool.and_eq_true] at hwf
      simp only [processEvent]
      rw [show (handleLeaveChat st sid c).1
          = modifySession st sid
              (fun ss => { ss with rooms := leaveRoom ss.rooms (Room.chat c) }) from rfl]
      rw [ih _ alive hwf.2 (sidsOk_modify st alive sid
        (fun ss => { ss with rooms := leaveRoom ss.rooms (Room.chat c) })
        (fun x => rfl) hinv)]
      rw [sessionAuthed_modify_uid st sid
        (fun ss => { ss with rooms := leaveRoom ss.rooms (Room.chat c) })
        (fun x => rfl) (fun x => rfl) s]
      simp [handleLeaveChat, countStatusFrom, specOfflineCount]
    | sendMessage sid c t =>
      simp only [wfTrace, InEvent.sid, Bool.and_eq_true] at hwf
      simp only [processEvent]
      have hse := handleSendMessage_sessions st sid c t
      rw [ih (handleSendMessage st sid c t).1 alive hwf.2
        ((sidsOk_iff_of_sessions _ st alive hse).mpr hinv)]
      rw [sessionAuthed_eq_of_sessions _ st hse s]
      rw [countStatusFrom_handleSend]
      simp [specOfflineCount]
    | typingStart sid c =>
      simp only [wfTrace, InEvent.sid, Bool.and_eq_true] at hwf
      simp only [processEvent]
      rw [show (handleTyping st sid c true).1 = st from rfl]
      rw [ih st alive hwf.2 hinv]
      rw [countStatusFrom_handleTyping]
      simp [specOfflineCount]
    | typingStop sid c =>
      simp only [wfTrace, InEvent.sid, Bool.and_eq_true] at hwf
      simp only [processEvent]
      rw [show (handleTyping st sid c false).1 = st from rfl]
      rw [ih st alive hwf.2 hinv]
      rw [countStatusFrom_handleTyping]
      simp [specOfflineCount]
    | disconnect sid =>
      simp only [wfTrace, Bool.and_eq_true] at hwf
      have hmem : sid ∈ alive := by simpa using hwf.1
      obtain ⟨sess, hsess⟩ := findSession_isSome_of_mem st alive hinv sid hmem
      have hrest : SidsOk
          { st with sessions := st.sessions.filter (fun ss => ss.sid ≠ sid) }
          (alive.filter (fun x => x ≠ sid)) := sidsOk_disconnect st alive sid hinv
      simp only [processEvent]
      cases hu : sess.userId with
      | none =>
        obtain ⟨hD1, hD2⟩ := handleDisconnect_none st sid sess hsess hu
        have hOk : SidsOk (handleDisconnect st sid).1 (alive.filter (fun x => x ≠ sid)) :=
          (sidsOk_iff_of_sessions (handleDisconnect st sid).1
            { st with sessions := st.sessions.filter (fun ss => ss.sid ≠ sid) }
            (alive.filter (fun x => x ≠ sid)) hD1).mpr hrest
        rw [hD2, ih (handleDisconnect st sid).1 (alive.filter (fun x => x ≠ sid))
          hwf.2 hOk]
        have hse : sessionAuthed (handleDisconnect st sid).1 s
            = sessionAuthed
                { st with sessions := st.sessions.filter (fun ss => ss.sid ≠ sid) } s :=
          sessionAuthed_eq_of_sessions _ _ hD1 s
        by_cases hs : sid = s
        · subst hs
          have h1 : sessionAuthed st sid = false := by
            unfold sessionAuthed
            rw [hsess]
            simp [hu]
          have h2 : sessionAuthed
              { st with sessions := st.sessions.filter (fun ss => ss.sid ≠ sid) }
              sid = false := by
            unfold sessionAuthed
            rw [findSession_disconnect_self]
          rw [hse, h1, h2]
          simp [countStatusFrom, specOfflineCount]
        · have h2 : sessionAuthed
              { st with sessions := st.sessions.filter (fun ss => ss.sid ≠ sid) } s
              = sessionAuthed st s := by
            unfold sessionAuthed
            rw [findSession_disconnect_ne st sid s (Ne.symm hs)]
          rw [hse, h2]
          simp [countStatusFrom, specOfflineCount, hs]
      | some uid =>
        obtain ⟨hD1, hD2⟩ := handleDisconnect_some st sid sess uid hsess hu
        have hOk : SidsOk (handleDisconnect st sid).1 (alive.filter (fun x => x ≠ sid)) :=
          (sidsOk_iff_of_sessions (handleDisconnect st sid).1
            { st with sessions := st.sessions.filter (fun ss => ss.sid ≠ sid) }
            (alive.filter (fun x => x ≠ sid)) hD1).mpr hrest
        rw [hD2, ih (handleDisconnect st sid).1 (alive.filter (fun x => x ≠ sid))
          hwf.2 hOk]
        have hse : sessionAuthed (handleDisconnect st sid).1 s
            = sessionAuthed
                { st with sessions := st.sessions.filter (fun ss => ss.sid ≠ sid) } s :=
          sessionAuthed_eq_of_sessions _ _ hD1 s
        have hauth : sessionAuthed st sid = true := by
          unfold sessionAuthed
          rw [hsess]
          simp [hu]
        by_cases hs : sid = s
        · subst hs
          have h2 : sessionAuthed
              { st with sessions := st.sessions.filter (fun ss => ss.sid ≠ sid) }
              sid = false := by
            unfold sessionAuthed
            rw [findSession_disconnect_self]
          rw [hse, h2, hauth]
          simp [countStatusFrom, specOfflineCount]
        · have h2 : sessionAuthed
              { st with sessions := st.sessions.filter (fun ss => ss.sid ≠ sid) } s
              = sessionAuthed st s := by
            unfold sessionAuthed
            rw [findSession_disconnect_ne st sid s (Ne.symm hs)]
          have hb : (sid == s) = false := by simp [hs]
          rw [hse, h2]
          simp [countStatusFrom, specOfflineCount, hs, hb]

lemma runEvents_away (s : SocketId) (evs : List InEvent) :
    ∀ st : ServerState,
      countStatusFrom s .away (runEvents st evs).2 = 0 := by
  induction evs with
  | nil =>
    intro st
    rfl
  | cons e rest ih =>
    intro st
    rw [runEvents_cons, countStatusFrom_append, ih]
    cases e with
    | connect sid => simp [processEvent, handleConnect, countStatusFrom]
    | authenticate sid r =>
      cases r with
      | none => simp [processEvent, handleAuthenticate, countStatusFrom]
      | some u => simp [processEvent, handleAuthenticate, countStatusFrom]
    | joinChat sid c => simp [processEvent, handleJoinChat, countStatusFrom]
    | leaveChat sid c => simp [processEvent, handleLeaveChat, countStatusFrom]
    | sendMessage sid c t =>
      rw [show (processEvent st (.sendMessage sid c t)).2
          = (handleSendMessage st sid c t).2 from rfl]
      rw [countStatusFrom_handleSend]
    | typingStart sid c =>
      rw [show (processEvent st (.typingStart sid c)).2
          = (handleTyping st sid c true).2 from rfl]
      rw [countStatusFrom_handleTyping]
    | typingStop sid c =>
      rw [show (processEvent st (.typingStop sid c)).2
          = (handleTyping st sid c false).2 from rfl]
      rw [countStatusFrom_handleTyping]
    | disconnect sid =>
      cases hf : findSession st sid with
      | none => simp [processEvent, handleDisconnect, hf, countStatusFrom]
      | some sess =>
        cases hu : sess.userId with
        | none => simp [processEvent, handleDisconnect, hf, hu, countStatusFrom]
        | some uid => simp [processEvent, handleDisconnect, hf, hu, countStatusFrom]

lemma specOfflineCount_zero (s : SocketId) (evs : List InEvent)
    (h : countSuccAuth s evs = 0) : specOfflineCount s false evs = 0 := by
  induction evs with
  | nil => rfl
  | cons e rest ih =>
    cases e with
    | connect sid => exact ih (by simpa [countSuccAuth] using h)
    | authenticate sid r =>
      cases r with
      | none => exact ih (by simpa [countSuccAuth] using h)
      | some u =>
        rw [countSuccAuth] at h
        have hsid : sid ≠ s := by
          intro hcon
          rw [if_pos hcon] at h
          omega
        have hrest : countSuccAuth s rest = 0 := by
          rw [if_neg hsid] at h
          omega
        have hb : (sid == s) = false := by simp [hsid]
        rw [specOfflineCount, hb]
        simpa using ih hrest
    | joinChat sid c => exact ih (by simpa [countSuccAuth] using h)
    | leaveChat sid c => exact ih (by simpa [countSuccAuth] using h)
    | sendMessage sid c t => exact ih (by simpa [countSuccAuth] using h)
    | typingStart sid c => exact ih (by simpa [countSuccAuth] using h)
    | typingStop sid c => exact ih (by simpa [countSuccAuth] using h)
    | disconnect sid =>
      have hrest := ih (by simpa [countSuccAuth] using h)
      rw [specOfflineCount]
      by_cases hsd : sid = s <;> simp [hsd, hrest]

lemma countAnyStatusFrom_eq (s : SocketId) (out : List Emit) :
    countAnyStatusFrom s out
      = countStatusFrom s .online out + countStatusFrom s .offline out
        + countStatusFrom s .away out := by
  induction out with
  | nil => rfl
  | cons e rest ih =>
    unfold countAnyStatusFrom countStatusFrom at *
    rw [List.countP_cons, List.countP_cons, List.countP_cons, List.countP_cons, ih]
    cases e with
    | statusBroadcast f u st2 =>
      by_cases hf : f = s
      · cases st2 <;> simp [hf] <;> ring
      · simp [hf]
    | newMessage t c x => simp
    | typing a c u b => simp

/-- C4: over any well-formed transport trace started on a fresh server,
a socket broadcasts `user_status_change(online)` exactly once per
successful authentication, broadcasts `user_status_change(offline)`
exactly once per disconnect that follows a successful authentication of
that socket (`specOfflineCount` with an initially unauthenticated
flag), and a socket that never successfully authenticates broadcasts no
`user_status_change` of any kind. -/
theorem claim_C4_status_broadcasts (s : SocketId) (evs : List InEvent)
    (chats : List (ChatId × Chat)) (ustat : List (UserId × Status))
    (hwf : wfTrace [] evs = true) :
    countStatusFrom s .online (runEvents (initialState chats ustat) evs).2
      = countSuccAuth s evs
    ∧ countStatusFrom s .offline (runEvents (initialState chats ustat) evs).2
      = specOfflineCount s false evs
    ∧ (countSuccAuth s evs = 0 →
        countAnyStatusFrom s (runEvents (initialState chats ustat) evs).2 = 0) := by
  have hinv : SidsOk (initialState chats ustat) [] := by
    constructor
    · simp [initialState]
    · intro x
      simp [initialState]
  have hoff := runEvents_offline s evs (initialState chats ustat) [] hwf hinv
  rw [show sessionAuthed (initialState chats ustat) s = false from rfl] at hoff
  refine ⟨runEvents_online s evs _, hoff, ?_⟩
  intro h0
  rw [countAnyStatusFrom_eq, runEvents_online s evs _, hoff, runEvents_away s evs _,
    h0, specOfflineCount_zero s evs h0]

/-- Witness for C4 on a concrete well-formed trace: socket 1 connects,
authenticates as user 7, and disconnects; socket 2 connects and
authenticates; socket 3 never appears.  Socket 1 broadcasts one
`online` and one `offline`; socket 3 broadcasts nothing. -/
theorem claim_C4_witness :
    countStatusFrom 1 Status.online
        (runEvents (initialState [] [])
          [InEvent.connect 1, InEvent.authenticate 1 (some 7), InEvent.connect 2,
           InEvent.authenticate 2 (some 8), InEvent.disconnect 1]).2 = 1
    ∧ countStatusFrom 1 Status.offline
        (runEvents (initialState [] [])
          [InEvent.connect 1, InEvent.authenticate 1 (some 7), InEvent.connect 2,
           InEvent.authenticate 2 (some 8), InEvent.disconnect 1]).2 = 1
    ∧ countAnyStatusFrom 3
        (runEvents (initialState [] [])
          [InEvent.connect 1, InEvent.authenticate 1 (some 7), InEvent.connect 2,
           InEvent.authenticate 2 (some 8), InEvent.disconnect 1]).2 = 0 := by
  have h1 := claim_C4_status_broadcasts 1
    [InEvent.connect 1, InEvent.authenticate 1 (some 7), InEvent.connect 2,
     InEvent.authenticate 2 (some 8), InEvent.disconnect 1] [] [] (by decide)
  have h3 := claim_C4_status_broadcasts 3
    [InEvent.connect 1, InEvent.authenticate 1 (some 7), InEvent.connect 2,
     InEvent.authenticate 2 (some 8), InEvent.disconnect 1] [] [] (by decide)
  refine ⟨?_, ?_, h3.2.2 (by decide)⟩
  · rw [h1.1]
    decide
  · rw [h1.2.1]
    decide
